import Mathlib

/-!
Verification of the RemGo orchestration backend (TypeScript sources).

The development shallowly embeds the parts of the backend that the spec's
testable properties talk about:

* `RemGo.JVal` — a model of JavaScript/JSON runtime values (including
  `undefined` and the non-finite numbers, so that `typeof`-style checks and
  `Number.isFinite` can be embedded faithfully);
* `RemGo.TaskArgs` — `backend/src/fooocus-task-args.ts`
  (`buildFooocusTaskArgs`, `validateFooocusTaskArgs`);
* `RemGo.ServerArgs` — the second, extended copy of the args builder that is
  embedded in `backend/src/server.ts` (the one with `normalizeAspectRatio`);
* `RemGo.Sched` — the GPU scheduler (`GPUScheduler.selectGPU`,
  `GPUScheduler.distributeImages`);
* `RemGo.Server` — the `/generate` task lifecycle of `backend/src/server.ts`
  (progress polling, the completion handler, and seed fan-out).
-/

namespace RemGo

/-- A JavaScript number: either a finite value (modelled as a rational) or one
of the IEEE non-finite values.  `typeof x === 'number'` is true for all of
these; `Number.isFinite` only for `fin`. -/
inductive JsNum where
  | fin (q : ℚ)
  | nan
  | posInf
  | negInf
deriving DecidableEq, Repr

/-- A JavaScript runtime value as seen by the backend handlers: `undefined`,
`null`, booleans, numbers, strings, arrays and objects. -/
inductive JVal where
  | undef
  | null
  | bool (b : Bool)
  | num (n : JsNum)
  | str (s : String)
  | arr (xs : List JVal)
  | obj (fields : List (String × JVal))
deriving Repr

/-- `typeof v === 'boolean'`. -/
def isBooleanV : JVal → Bool
  | .bool _ => true
  | _ => false

/-- `typeof v === 'string'`. -/
def isStringV : JVal → Bool
  | .str _ => true
  | _ => false

/-- `typeof v === 'number'` (true also for `NaN` and the infinities). -/
def isNumberV : JVal → Bool
  | .num _ => true
  | _ => false

/-- `Array.isArray(v)`. -/
def isArrayV : JVal → Bool
  | .arr _ => true
  | _ => false

/-- `Array.isArray(v) && v.every(item => typeof item === 'string')`. -/
def isStringArrayV : JVal → Bool
  | .arr xs => xs.all isStringV
  | _ => false

/-- JavaScript truthiness of a value (`undefined`, `null`, `false`, `0`,
`NaN` and `""` are falsy; everything else is truthy). -/
def jsTruthy : JVal → Bool
  | .undef => false
  | .null => false
  | .bool b => b
  | .num (.fin q) => decide (q ≠ 0)
  | .num .nan => false
  | .num .posInf => true
  | .num .negInf => true
  | .str s => decide (s ≠ "")
  | .arr _ => true
  | .obj _ => true

/-- A structured request: a JavaScript object read through its keys.
A key that is absent maps to `undefined`. -/
def GenericRequest := String → JVal

namespace TaskArgs

/-! Embedding of `backend/src/fooocus-task-args.ts`. -/

def DEFAULT_STYLES : List String := ["Fooocus V2", "Fooocus Enhance", "Fooocus Sharp"]
def DEFAULT_UOV_METHOD : String := "Disabled"
def DEFAULT_REFINER_SWAP_METHOD : String := "joint"
def DEFAULT_IP_TYPE : String := "ImagePrompt"
def DEFAULT_METADATA_SCHEME : String := "fooocus"

def DEFAULT_MAX_LORA_NUMBER : Nat := 5
def DEFAULT_CONTROLNET_IMAGE_COUNT : Nat := 4
def DEFAULT_ENHANCE_TABS : Nat := 3

def FOOOCUS_ARGS_CONTRACT_VERSION : Nat := 1
def FOOOCUS_ARGS_EXPECTED_LENGTH : Nat := 152

inductive ValidationResult where
  | ok
  | err (reason : String)
deriving DecidableEq, Repr

/-- `asString(value, fallback)`. -/
def asString (value : JVal) (fallback : String) : String :=
  match value with
  | .str s => s
  | _ => fallback

/-- `asNumber(value, fallback)`: keeps the value only when it is a number and
`Number.isFinite` holds, hence the result is always a finite number. -/
def asNumber (value : JVal) (fallback : ℚ) : ℚ :=
  match value with
  | .num (.fin q) => q
  | _ => fallback

/-- `asBoolean(value, fallback)`. -/
def asBoolean (value : JVal) (fallback : Bool) : Bool :=
  match value with
  | .bool b => b
  | _ => fallback

/-- The string elements of a list of values (`value.filter(item => typeof item === 'string')`). -/
def stringItems (xs : List JVal) : List String :=
  xs.filterMap (fun v => match v with | .str s => some s | _ => none)

/-- `asStringArray(value, fallback)` — the `fooocus-task-args.ts` version,
which falls back when the filtered list is empty. -/
def asStringArray (value : JVal) (fallback : List String) : List String :=
  match value with
  | .arr xs => if (stringItems xs).length > 0 then stringItems xs else fallback
  | _ => fallback

/-- One entry of `normalizeLoras`: an array of length ≥ 3 contributes a
`(enabled, model, weight)` triple, anything else is skipped. -/
def normalizeLoras (value : JVal) : List (Bool × String × ℚ) :=
  match value with
  | .arr items =>
      items.filterMap (fun item =>
        match item with
        | .arr fields =>
            if fields.length < 3 then none
            else some (asBoolean (fields.getD 0 .undef) false,
                       asString (fields.getD 1 .undef) "None",
                       asNumber (fields.getD 2 .undef) 1.0)
        | _ => none)
  | _ => []

/-- The three positional entries emitted for LoRA slot `i`. -/
def loraSlotAt (loras : List (Bool × String × ℚ)) (i : Nat) : List JVal :=
  match loras.get? i with
  | some l => [.bool l.1, .str l.2.1, .num (.fin l.2.2)]
  | none => [.bool false, .str "None", .num (.fin 1.0)]

/-- The 15 positional entries of the 5 LoRA slots. -/
def loraArgs (loras : List (Bool × String × ℚ)) : List JVal :=
  (List.range DEFAULT_MAX_LORA_NUMBER).flatMap (loraSlotAt loras)

/-- The 16 positional entries of the ControlNet image block. -/
def controlnetArgs : List JVal :=
  (List.range DEFAULT_CONTROLNET_IMAGE_COUNT).flatMap
    (fun _ => [.null, .num (.fin 1.0), .num (.fin 1.0), .str DEFAULT_IP_TYPE])

/-- The 48 positional entries of the three enhance tabs. -/
def enhanceArgs : List JVal :=
  (List.range DEFAULT_ENHANCE_TABS).flatMap
    (fun _ => [.bool false, .str "", .str "", .str "", .str "None", .str "None", .str "None",
               .num (.fin 0.3), .num (.fin 0.25), .num (.fin 0), .bool false, .str "None",
               .num (.fin 1.0), .num (.fin 0.618), .num (.fin 0), .bool false])

/-- The first 15 positional entries (indexes 0–14 of the contract table). -/
def headArgs (prompt negativePrompt : String) (styleSelections : List String)
    (performance aspectRatio : String) (imageNumber : ℚ) (outputFormat : String)
    (imageSeed : ℚ) (seedRandom : Bool) (sharpness guidanceScale : ℚ)
    (baseModel refinerModel : String) (refinerSwitch : ℚ) : List JVal :=
  [.bool true,
   .str prompt,
   .str negativePrompt,
   .arr (styleSelections.map .str),
   .str performance,
   .str aspectRatio,
   .num (.fin imageNumber),
   .str outputFormat,
   .num (.fin imageSeed),
   .bool seedRandom,
   .num (.fin sharpness),
   .num (.fin guidanceScale),
   .str baseModel,
   .str refinerModel,
   .num (.fin refinerSwitch)]

/-- The 50 positional entries pushed after the LoRA slots (the block starting
with `true, 'disabled', …` and ending with the metadata scheme). -/
def midArgs (clipSkip : ℚ) (sampler schedulerName vae : String) : List JVal :=
  [.bool true,
   .str "disabled",
   .str DEFAULT_UOV_METHOD,
   .null,
   .arr [],
   .null,
   .str "",
   .null,
   .bool false, .bool false, .bool false, .bool false,
   .num (.fin 1.5), .num (.fin 0.8), .num (.fin 0.3),
   .num (.fin 7.0),
   .num (.fin clipSkip),
   .str sampler,
   .str schedulerName,
   .str vae,
   .num (.fin (-1)), .num (.fin (-1)), .num (.fin (-1)),
   .num (.fin (-1)), .num (.fin (-1)), .num (.fin (-1)),
   .bool false, .bool false, .bool false, .bool false,
   .num (.fin 64), .num (.fin 128),
   .str DEFAULT_REFINER_SWAP_METHOD,
   .num (.fin 0.25),
   .bool false, .num (.fin 1.1), .num (.fin 1.2), .num (.fin 0.9), .num (.fin 0.2),
   .bool false, .bool false,
   .str "None", .num (.fin 1.0), .num (.fin 0.0),
   .bool false, .bool false, .num (.fin 0),
   .bool false,
   .bool false,
   .str DEFAULT_METADATA_SCHEME]

/-- The 8 positional entries pushed between the ControlNet block and the
enhance tabs. -/
def enhancePrefixArgs : List JVal :=
  [.bool false, .num (.fin 0), .bool false, .null, .bool false,
   .str "Disabled",
   .str "Before First Enhancement",
   .str "Original Prompts"]

/-- `buildFooocusTaskArgs(request)` of `backend/src/fooocus-task-args.ts`. -/
def buildFooocusTaskArgs (request : GenericRequest) : List JVal :=
  headArgs
    (asString (request "prompt") "")
    (asString (request "negative_prompt") "")
    (asStringArray (request "style_selections") DEFAULT_STYLES)
    (asString (request "performance_selection") "Speed")
    (asString (request "aspect_ratios_selection") "1024×1024")
    (asNumber (request "image_number") 1)
    (asString (request "output_format") "png")
    (asNumber (request "image_seed") (-1))
    (asBoolean (request "seed_random") true)
    (asNumber (request "image_sharpness") 2.0)
    (asNumber (request "guidance_scale") 4.0)
    (asString (request "base_model_name") "model.safetensors")
    (asString (request "refiner_model_name") "None")
    (asNumber (request "refiner_switch") 0.5)
  ++ loraArgs (normalizeLoras (request "loras"))
  ++ midArgs
       (asNumber (request "clip_skip") 2)
       (asString (request "sampler_name") "dpmpp_2m_sde_gpu")
       (asString (request "scheduler_name") "karras")
       (asString (request "vae_name") "Default (model)")
  ++ controlnetArgs
  ++ enhancePrefixArgs
  ++ enhanceArgs

/-- `validateFooocusTaskArgs(args)` of `backend/src/fooocus-task-args.ts`
(the copy embedded in `server.ts` is textually identical). -/
def validateFooocusTaskArgs (args : JVal) : ValidationResult :=
  match args with
  | .arr xs =>
      if xs.length ≠ FOOOCUS_ARGS_EXPECTED_LENGTH then
        .err ("fooocus_args length mismatch: got " ++ toString xs.length ++
              ", expected " ++ toString FOOOCUS_ARGS_EXPECTED_LENGTH)
      else if ¬ isBooleanV (xs.getD 0 .undef) then .err "fooocus_args[0] must be boolean"
      else if ¬ isStringV (xs.getD 1 .undef) then .err "fooocus_args[1] must be string"
      else if ¬ isStringV (xs.getD 2 .undef) then .err "fooocus_args[2] must be string"
      else if ¬ isStringArrayV (xs.getD 3 .undef) then .err "fooocus_args[3] must be string[]"
      else if ¬ isNumberV (xs.getD 6 .undef) then .err "fooocus_args[6] must be number"
      else if ¬ isNumberV (xs.getD 8 .undef) then .err "fooocus_args[8] must be number"
      else if ¬ isBooleanV (xs.getD 9 .undef) then .err "fooocus_args[9] must be boolean"
      else .ok
  | _ => .err "fooocus_args must be an array"

end TaskArgs

namespace ServerArgs

/-!
Embedding of the second, extended copy of the args builder that is embedded in
`backend/src/server.ts`.  `asString`, `asNumber`, `asBoolean`, `normalizeLoras`
and the LoRA/ControlNet/enhance blocks are textually identical to the
`fooocus-task-args.ts` versions and are shared from `TaskArgs`; the
definitions below are the ones whose text differs.
-/

open TaskArgs (asString asNumber asBoolean stringItems normalizeLoras loraArgs
  controlnetArgs enhanceArgs enhancePrefixArgs headArgs
  DEFAULT_UOV_METHOD DEFAULT_REFINER_SWAP_METHOD DEFAULT_METADATA_SCHEME)

def DEFAULT_STYLES : List String := []

def DEFAULT_METADATA_SCHEMES : List String := [DEFAULT_METADATA_SCHEME, "a1111"]

def DEFAULT_REFINER_SWAP_METHODS : List String :=
  [DEFAULT_REFINER_SWAP_METHOD, "separate", "vae"]

/-- `asStringArray(value, fallback)` — the `server.ts` version, which returns
the filtered items even when that list is empty. -/
def asStringArray (value : JVal) (fallback : List String) : List String :=
  match value with
  | .arr xs => stringItems xs
  | _ => fallback

/-- `normalizeAspectRatio(value)`: `value.replace(/[xX*]/g, '×')` — each
character that is `x`, `X` or `*` is replaced by the multiplication sign. -/
def normalizeAspectRatio (value : String) : String :=
  ⟨value.data.map (fun c => if c = 'x' ∨ c = 'X' ∨ c = '*' then '×' else c)⟩

/-- `asEnumString(value, fallback, allowed)`. -/
def asEnumString (value : JVal) (fallback : String) (allowed : List String) : String :=
  match value with
  | .str s => if allowed.contains s then s else fallback
  | _ => fallback

/-- The 50 positional entries pushed after the LoRA slots in the `server.ts`
builder (same block as `TaskArgs.midArgs`, with several constants replaced by
request-derived values). -/
def midArgs (disableSeedIncrement : Bool)
    (admScalerPositive admScalerNegative admScalerEnd adaptiveCfg clipSkip : ℚ)
    (sampler schedulerName vae : String)
    (overwriteStep overwriteSwitch overwriteWidth overwriteHeight : ℚ)
    (refinerSwapMethod : String) (controlnetSoftness : ℚ)
    (freeuEnabled : Bool) (freeuB1 freeuB2 freeuS1 freeuS2 : ℚ)
    (saveMetadataToImages : Bool) (metadataScheme : String) : List JVal :=
  [.bool true,
   .str "disabled",
   .str DEFAULT_UOV_METHOD,
   .null,
   .arr [],
   .null,
   .str "",
   .null,
   .bool false, .bool false,
   .bool disableSeedIncrement,
   .bool false,
   .num (.fin admScalerPositive), .num (.fin admScalerNegative), .num (.fin admScalerEnd),
   .num (.fin adaptiveCfg),
   .num (.fin clipSkip),
   .str sampler,
   .str schedulerName,
   .str vae,
   .num (.fin overwriteStep), .num (.fin overwriteSwitch),
   .num (.fin overwriteWidth), .num (.fin overwriteHeight),
   .num (.fin (-1)), .num (.fin (-1)),
   .bool false, .bool false, .bool false, .bool false,
   .num (.fin 64), .num (.fin 128),
   .str refinerSwapMethod,
   .num (.fin controlnetSoftness),
   .bool freeuEnabled,
   .num (.fin freeuB1), .num (.fin freeuB2), .num (.fin freeuS1), .num (.fin freeuS2),
   .bool false, .bool false,
   .str "None", .num (.fin 1.0), .num (.fin 0.0),
   .bool false, .bool false, .num (.fin 0),
   .bool false,
   .bool saveMetadataToImages,
   .str metadataScheme]

/-- `buildFooocusTaskArgs(request)` — the `server.ts` version (the one that
normalizes the aspect ratio). -/
def buildFooocusTaskArgs (request : GenericRequest) : List JVal :=
  headArgs
    (asString (request "prompt") "")
    (asString (request "negative_prompt") "")
    (asStringArray (request "style_selections") DEFAULT_STYLES)
    (asString (request "performance_selection") "Speed")
    (normalizeAspectRatio (asString (request "aspect_ratios_selection") "1024×1024"))
    (asNumber (request "image_number") 1)
    (asString (request "output_format") "png")
    (asNumber (request "image_seed") (-1))
    (asBoolean (request "seed_random") true)
    (asNumber (request "image_sharpness") 2.0)
    (asNumber (request "guidance_scale") 4.0)
    (asString (request "base_model_name") "model.safetensors")
    (asString (request "refiner_model_name") "None")
    (asNumber (request "refiner_switch") 0.5)
  ++ loraArgs (normalizeLoras (request "loras"))
  ++ midArgs
       (asBoolean (request "disable_seed_increment") false)
       (asNumber (request "adm_scaler_positive") 1.5)
       (asNumber (request "adm_scaler_negative") 0.8)
       (asNumber (request "adm_scaler_end") 0.3)
       (asNumber (request "adaptive_cfg") 7.0)
       (asNumber (request "clip_skip") 2)
       (asString (request "sampler_name") "dpmpp_2m_sde_gpu")
       (asString (request "scheduler_name") "karras")
       (asString (request "vae_name") "Default (model)")
       (asNumber (request "overwrite_step") (-1))
       (asNumber (request "overwrite_switch") (-1))
       (asNumber (request "overwrite_width") (-1))
       (asNumber (request "overwrite_height") (-1))
       (asEnumString (request "refiner_swap_method") DEFAULT_REFINER_SWAP_METHOD
         DEFAULT_REFINER_SWAP_METHODS)
       (asNumber (request "controlnet_softness") 0.25)
       (asBoolean (request "freeu_enabled") false)
       (asNumber (request "freeu_b1") 1.1)
       (asNumber (request "freeu_b2") 1.2)
       (asNumber (request "freeu_s1") 0.9)
       (asNumber (request "freeu_s2") 0.2)
       (asBoolean (request "save_metadata_to_images") false)
       (asEnumString (request "metadata_scheme") DEFAULT_METADATA_SCHEME
         DEFAULT_METADATA_SCHEMES)
  ++ controlnetArgs
  ++ enhancePrefixArgs
  ++ enhanceArgs

end ServerArgs

namespace Sched

/-! Embedding of the GPU scheduler (`GPUScheduler` in the scheduler source,
the version with `distribute` and `distributeImages`). -/

structure GPUConfig where
  device : Int
  name : String
  weight : Int
deriving DecidableEq, Repr

structure GPUState where
  config : GPUConfig
  busy : Bool
  port : Int
  currentWeight : Int
deriving DecidableEq, Repr

structure GPUScheduler where
  gpus : List GPUState
  enabled : Bool
  distribute : Bool
deriving DecidableEq, Repr

/-- `getAvailableGPUs()`: all non-busy slots. -/
def getAvailableGPUs (sch : GPUScheduler) : List GPUState :=
  sch.gpus.filter (fun g => !g.busy)

/-- `gpusToUse` in `distributeImages`: the available slots, falling back to
the full slot list when none is available. -/
def candidates (sch : GPUScheduler) : List GPUState :=
  if (getAvailableGPUs sch).length > 0 then getAvailableGPUs sch else sch.gpus

/-- The `reduce` in `distributeImages` that picks the most powerful GPU:
keeps `prev` only when its weight is strictly greater, so ties go to the
later slot. -/
def bestByWeight (g0 : GPUState) (rest : List GPUState) : GPUState :=
  rest.foldl
    (fun prev current =>
      if prev.config.weight > current.config.weight then prev else current) g0

/-- `totalWeight`: sum of the candidates' configured weights. -/
def totalWeightOf (l : List GPUState) : Int :=
  l.foldl (fun s g => s + g.config.weight) 0

/-- The proportional-allocation loop of `distributeImages`: every GPU except
the last gets `Math.floor(totalImages * weight / totalWeight)` (skipped when
zero), the last gets the remaining count (skipped when not positive). -/
def allocate (totalImages totalWeight : Int) :
    List GPUState → Int → List (GPUState × Int)
  | [], _ => []
  | [g], remaining => if remaining > 0 then [(g, remaining)] else []
  | g :: g2 :: rest, remaining =>
      let count := Int.fdiv (totalImages * g.config.weight) totalWeight
      if count > 0 then
        (g, count) :: allocate totalImages totalWeight (g2 :: rest) (remaining - count)
      else
        allocate totalImages totalWeight (g2 :: rest) remaining

/-- `distributeImages(totalImages)`. -/
def distributeImages (sch : GPUScheduler) (totalImages : Int) :
    List (GPUState × Int) :=
  match candidates sch with
  | [] => []
  | g0 :: rest =>
      if sch.distribute = false ∨ totalImages ≤ 1 ∨ (g0 :: rest).length = 1 then
        if sch.distribute = false then [(bestByWeight g0 rest, totalImages)]
        else [(g0, totalImages)]
      else
        (allocate totalImages (totalWeightOf (g0 :: rest)) (g0 :: rest) totalImages).filter
          (fun a => a.2 > 0)

/-- `this.gpus[bestIdx].currentWeight--`. -/
def decSlot (g : GPUState) : GPUState :=
  { g with currentWeight := g.currentWeight - 1 }

/-- `g.currentWeight = g.config.weight` (the refill in `selectGPU`). -/
def resetSlot (g : GPUState) : GPUState :=
  { g with currentWeight := g.config.weight }

/-- In-place update of one list element (array index assignment). -/
def modifyIdx : List α → Nat → (α → α) → List α
  | [], _, _ => []
  | g :: rest, 0, f => f g :: rest
  | g :: rest, n + 1, f => g :: modifyIdx rest n f

/-- One of the two `for` scans in `selectGPU`: fold over the slots keeping
`(bestIdx, bestWeight)`, replacing the pair whenever the predicate holds and
the slot's `currentWeight` is strictly greater than `bestWeight`. -/
def bestScan (p : GPUState → Bool) : List GPUState → Int → Int × Int → Int × Int
  | [], _, acc => acc
  | g :: rest, i, acc =>
      bestScan p rest (i + 1)
        (if p g ∧ g.currentWeight > acc.2 then (i, g.currentWeight) else acc)

/-- `selectGPU()`: weighted round-robin.  Returns the index of the chosen slot
(`none` when disabled or empty) together with the updated scheduler. -/
def selectGPU (sch : GPUScheduler) : Option Nat × GPUScheduler :=
  if sch.enabled = false ∨ sch.gpus.length = 0 then (none, sch)
  else
    let first := bestScan (fun g => !g.busy) sch.gpus 0 (-1, -1)
    let best := if first.1 = -1 then bestScan (fun _ => true) sch.gpus 0 (-1, -1) else first
    if best.1 = -1 then (some 0, sch)
    else
      let idx := best.1.toNat
      let gpus1 := modifyIdx sch.gpus idx decSlot
      let gpus2 :=
        if gpus1.all (fun g => g.currentWeight ≤ 0) then gpus1.map resetSlot else gpus1
      (some idx, { sch with gpus := gpus2 })

/-- `n` successive calls to `selectGPU`, collecting the chosen indices in call
order. -/
def runSelect : GPUScheduler → Nat → GPUScheduler × List Nat
  | sch, 0 => (sch, [])
  | sch, n + 1 =>
      let r := selectGPU sch
      let rest := runSelect r.2 n
      (rest.1, r.1.toList ++ rest.2)

end Sched

namespace Server

/-! Embedding of the `/generate` task lifecycle of `backend/src/server.ts`:
the in-memory `TaskStatus`, the progress-polling update rule, the completion
handler, and the per-sub-task request bodies. -/

structure TaskStatus where
  percentage : ℚ
  statusText : String
  results : List String
  finished : Bool
  preview : Option String
deriving DecidableEq, Repr

/-- One progress response fetched from a worker by the polling loop. -/
structure PollResponse where
  percentage : ℚ
  statusText : String
  finished : Bool
  preview : Option String
  results : List String
deriving DecidableEq, Repr

/-- JavaScript truthiness of `progress.preview` (a `string | null`). -/
def previewTruthy : Option String → Bool
  | some s => decide (s ≠ "")
  | none => false

/-- One iteration of the polling loop for one sub-task response
(`server.ts`, the body of `startProgressPolling`'s interval): bail out when
the task is already finished; otherwise, when the reported percentage exceeds
the stored one or a preview is present, take the maximum percentage, adopt a
non-empty status text and the preview, and publish the updated status. -/
def pollStep (st : TaskStatus) (r : PollResponse) : TaskStatus × Option TaskStatus :=
  if st.finished then (st, none)
  else if r.percentage > st.percentage ∨ previewTruthy r.preview then
    let st' : TaskStatus :=
      { st with
        percentage := max st.percentage r.percentage,
        statusText := if r.statusText ≠ "" then r.statusText else st.statusText,
        preview := r.preview }
    (st', some st')
  else (st, none)

/-- Process a sequence of polled responses, returning the final status and the
list of published updates in order. -/
def processPolls (st : TaskStatus) : List PollResponse → TaskStatus × List TaskStatus
  | [] => (st, [])
  | r :: rest =>
      let s := pollStep st r
      let t := processPolls s.1 rest
      (t.1, s.2.toList ++ t.2)

/-- The status inserted into `activeTasks` on `/generate` entry. -/
def initialStatus : TaskStatus :=
  { percentage := 0, statusText := "Starting", results := [], finished := false,
    preview := none }

/-- The status published right after `distributeImages`: percentage 5 and a
"Distributing to …" status text. -/
def distributingStatus (gpuNames : String) : TaskStatus :=
  { initialStatus with
    percentage := 5,
    statusText := "Distributing to " ++ gpuNames }

/-- The `Promise.all` completion handler: store the aggregated results, mark
finished, force percentage 100, set the final status text and clear the
preview. -/
def completeStep (st : TaskStatus) (allResults : List String) (totalImages : Int) :
    TaskStatus :=
  { st with
    results := allResults,
    finished := true,
    percentage := 100,
    statusText := "Finished (" ++ toString allResults.length ++ "/" ++
      toString totalImages ++ " images)",
    preview := none }

/-- The published updates of one task lifecycle: the initial update, the
distribution update, the updates of the polling phase, the terminal update of
the completion handler, and whatever any polls that fire after completion
would still publish (the `status.finished` guard makes that nothing). -/
def publishedUpdates (gpuNames : String) (polls postPolls : List PollResponse)
    (allResults : List String) (totalImages : Int) : List TaskStatus :=
  let st1 := distributingStatus gpuNames
  let p := processPolls st1 polls
  let stF := completeStep p.1 allResults totalImages
  let post := processPolls stF postPolls
  [initialStatus, st1] ++ p.2 ++ [stF] ++ post.2

/-- The sub-task request bodies built by the `/generate` handler: one body per
assignment, each equal to the parent body except that `image_number` is the
assignment's image count, `image_seed` is the running base seed, and
`seed_random` is false; the base seed is incremented by the image count
between sub-tasks. -/
def subTaskBodies (body : String → JVal) : Int → List Int → List (String → JVal)
  | _, [] => []
  | baseSeed, n :: rest =>
      (fun k =>
        if k = "image_number" then .num (.fin (n : ℚ))
        else if k = "image_seed" then .num (.fin (baseSeed : ℚ))
        else if k = "seed_random" then .bool false
        else body k) :: subTaskBodies body (baseSeed + n) rest

/-- `const totalImages = body.image_number || 1`. -/
def resolveTotalImages (v : JVal) : JVal :=
  if jsTruthy v then v else .num (.fin 1)

/-- JavaScript `v > 0` for the values `resolveTotalImages` can feed into the
`/generate` guard.  String and aggregate operands (which JavaScript would
coerce through `ToNumber`) are not modelled; theorems over this guard restrict
`image_number` to numbers and falsy values, matching the request interface's
`image_number?: number`. -/
def jsGtZero : JVal → Bool
  | .num (.fin q) => decide (0 < q)
  | .num .posInf => true
  | .num .nan => false
  | .num .negInf => false
  | .bool b => b
  | _ => false

/-- The `/generate` guard `scheduler.isEnabled() && totalImages > 0`: `true`
means the handler proceeds to distribution, `false` means it returns the
`'Multi-GPU not enabled or no images requested'` error response. -/
def generateProceeds (enabled : Bool) (image_number : JVal) : Bool :=
  enabled && jsGtZero (resolveTotalImages image_number)

end Server

/-! ### Concrete fixtures used by counterexamples and witnesses -/

/-- A request whose only field is `aspect_ratios_selection: "1152*896"`. -/
def reqAspectStar : GenericRequest :=
  fun k => if k = "aspect_ratios_selection" then JVal.str "1152*896" else JVal.undef

/-- A 152-entry args vector that passes all checks of
`validateFooocusTaskArgs` but has a non-string (`null`) at position 4. -/
def vecNullAt4 : List JVal :=
  [.bool true, .str "", .str "", .arr [], .null, .null, .num (.fin 1), .null,
   .num (.fin (-1)), .bool true] ++ List.replicate 142 .null

/-- A scheduler with an empty slot list. -/
def schedEmpty : Sched.GPUScheduler :=
  { gpus := [], enabled := true, distribute := true }

/-- Two idle slots that share device number 0. -/
def slotDupA : Sched.GPUState :=
  { config := { device := 0, name := "A", weight := 1 }, busy := false,
    port := 9000, currentWeight := 1 }

def slotDupB : Sched.GPUState :=
  { config := { device := 0, name := "B", weight := 1 }, busy := false,
    port := 9001, currentWeight := 1 }

/-- A scheduler whose two idle slots share one device number. -/
def schedDup : Sched.GPUScheduler :=
  { gpus := [slotDupA, slotDupB], enabled := true, distribute := true }

/-- An idle weight-1 slot on device 0 declared before an idle weight-2 slot on
device 1. -/
def slotW1 : Sched.GPUState :=
  { config := { device := 0, name := "small", weight := 1 }, busy := false,
    port := 9000, currentWeight := 1 }

def slotW2 : Sched.GPUState :=
  { config := { device := 1, name := "big", weight := 2 }, busy := false,
    port := 9001, currentWeight := 2 }

/-- Distribute-enabled scheduler where the first-declared slot has the lower
weight. -/
def schedLowFirst : Sched.GPUScheduler :=
  { gpus := [slotW1, slotW2], enabled := true, distribute := true }

/-- The same slot table with the distribute flag off. -/
def schedLowFirstNoDist : Sched.GPUScheduler :=
  { gpus := [slotW1, slotW2], enabled := true, distribute := false }

/-- Idle slots of weights 3 and 1 on devices 0 and 1. -/
def slotW3 : Sched.GPUState :=
  { config := { device := 0, name := "fast", weight := 3 }, busy := false,
    port := 9000, currentWeight := 3 }

def slotW1d1 : Sched.GPUState :=
  { config := { device := 1, name := "slow", weight := 1 }, busy := false,
    port := 9001, currentWeight := 1 }

/-- Distribute-enabled scheduler with weights `[3, 1]`. -/
def sched31 : Sched.GPUScheduler :=
  { gpus := [slotW3, slotW1d1], enabled := true, distribute := true }

/-- Two polled worker responses: one publishing by percentage, one publishing
by preview only. -/
def wPolls : List Server.PollResponse :=
  [{ percentage := 50, statusText := "sampling", finished := false, preview := none,
     results := [] },
   { percentage := 30, statusText := "", finished := false, preview := some "p",
     results := [] }]

/-- A parent request body used by the seed fan-out witness. -/
def wBody : String → JVal :=
  fun k => if k = "prompt" then JVal.str "a cat" else JVal.undef

/-! ## Theorems -/

set_option maxRecDepth 20000

namespace TaskArgs

theorem loraSlotAt_length (loras : List (Bool × String × ℚ)) (i : Nat) :
    (loraSlotAt loras i).length = 3 := by
  unfold loraSlotAt
  cases loras.get? i <;> simp

theorem loraArgs_length (loras : List (Bool × String × ℚ)) :
    (loraArgs loras).length = 15 := by
  simp [loraArgs, DEFAULT_MAX_LORA_NUMBER, List.range_succ, loraSlotAt_length]

theorem controlnetArgs_length : controlnetArgs.length = 16 := rfl

theorem enhanceArgs_length : enhanceArgs.length = 48 := rfl

theorem buildFooocusTaskArgs_length (request : GenericRequest) :
    (buildFooocusTaskArgs request).length = FOOOCUS_ARGS_EXPECTED_LENGTH := by
  simp [buildFooocusTaskArgs, headArgs, midArgs, enhancePrefixArgs,
    controlnetArgs_length, enhanceArgs_length, loraArgs_length,
    FOOOCUS_ARGS_EXPECTED_LENGTH]

theorem build_getD_0 (request : GenericRequest) :
    (buildFooocusTaskArgs request).getD 0 .undef = .bool true := rfl

theorem build_getD_1 (request : GenericRequest) :
    (buildFooocusTaskArgs request).getD 1 .undef =
      .str (asString (request "prompt") "") := rfl

theorem build_getD_2 (request : GenericRequest) :
    (buildFooocusTaskArgs request).getD 2 .undef =
      .str (asString (request "negative_prompt") "") := rfl

theorem build_getD_3 (request : GenericRequest) :
    (buildFooocusTaskArgs request).getD 3 .undef =
      .arr ((asStringArray (request "style_selections") DEFAULT_STYLES).map .str) := rfl

theorem build_getD_5 (request : GenericRequest) :
    (buildFooocusTaskArgs request).getD 5 .undef =
      .str (asString (request "aspect_ratios_selection") "1024×1024") := rfl

theorem build_getD_6 (request : GenericRequest) :
    (buildFooocusTaskArgs request).getD 6 .undef =
      .num (.fin (asNumber (request "image_number") 1)) := rfl

theorem build_getD_8 (request : GenericRequest) :
    (buildFooocusTaskArgs request).getD 8 .undef =
      .num (.fin (asNumber (request "image_seed") (-1))) := rfl

theorem build_getD_9 (request : GenericRequest) :
    (buildFooocusTaskArgs request).getD 9 .undef =
      .bool (asBoolean (request "seed_random") true) := rfl

theorem all_map_str (l : List String) : (l.map JVal.str).all isStringV = true := by
  induction l with
  | nil => rfl
  | cons a t ih => simp [isStringV, ih]

theorem build_check_0 (request : GenericRequest) :
    isBooleanV ((buildFooocusTaskArgs request).getD 0 .undef) = true := rfl

theorem build_check_1 (request : GenericRequest) :
    isStringV ((buildFooocusTaskArgs request).getD 1 .undef) = true := rfl

theorem build_check_2 (request : GenericRequest) :
    isStringV ((buildFooocusTaskArgs request).getD 2 .undef) = true := rfl

theorem build_check_3 (request : GenericRequest) :
    isStringArrayV ((buildFooocusTaskArgs request).getD 3 .undef) = true := by
  rw [build_getD_3]
  simp only [isStringArrayV, all_map_str]

theorem build_check_6 (request : GenericRequest) :
    isNumberV ((buildFooocusTaskArgs request).getD 6 .undef) = true := rfl

theorem build_check_8 (request : GenericRequest) :
    isNumberV ((buildFooocusTaskArgs request).getD 8 .undef) = true := rfl

theorem build_check_9 (request : GenericRequest) :
    isBooleanV ((buildFooocusTaskArgs request).getD 9 .undef) = true := rfl

/-- Claim C1: for every structured generation request, `buildFooocusTaskArgs`
produces a vector of length exactly `FOOOCUS_ARGS_EXPECTED_LENGTH = 152`
(construction is total: typed defaults cover absent or mis-typed fields), and
`validateFooocusTaskArgs` applied to that vector returns ok. -/
theorem buildFooocusTaskArgs_roundtrip (request : GenericRequest) :
    (buildFooocusTaskArgs request).length = FOOOCUS_ARGS_EXPECTED_LENGTH ∧
    validateFooocusTaskArgs (.arr (buildFooocusTaskArgs request)) = .ok := by
  refine ⟨buildFooocusTaskArgs_length request, ?_⟩
  simp only [validateFooocusTaskArgs, buildFooocusTaskArgs_length request,
    build_check_0, build_check_1, build_check_2, build_check_3, build_check_6,
    build_check_8, build_check_9, ne_eq, not_true_eq_false, not_false_eq_true,
    Bool.not_eq_true, if_false, ite_false]

/-- Claim C9 (amended): a vector passes `validateFooocusTaskArgs` exactly when
its length is 152, positions 0 and 9 hold booleans, positions 1 and 2 hold
strings, position 3 holds a sequence of strings, and positions 6 and 8 hold
numbers (finite or not); positions 4, 5, 7, 10, 11, 12, 13 and 14 are not
checked, and numbers are not checked for finiteness. -/
theorem validateFooocusTaskArgs_ok_iff (xs : List JVal) :
    validateFooocusTaskArgs (.arr xs) = .ok ↔
      (xs.length = FOOOCUS_ARGS_EXPECTED_LENGTH ∧
       isBooleanV (xs.getD 0 .undef) = true ∧
       isStringV (xs.getD 1 .undef) = true ∧
       isStringV (xs.getD 2 .undef) = true ∧
       isStringArrayV (xs.getD 3 .undef) = true ∧
       isNumberV (xs.getD 6 .undef) = true ∧
       isNumberV (xs.getD 8 .undef) = true ∧
       isBooleanV (xs.getD 9 .undef) = true) := by
  simp only [validateFooocusTaskArgs]
  split_ifs with h1 h2 h3 h4 h5 h6 h7 h8 <;> simp_all

/-- Counterexample to claim C9 as stated: a 152-entry vector whose position 4
is `null` (not a string, violating the claimed `ArgsVector` invariant) is
nevertheless accepted by `validateFooocusTaskArgs`. -/
theorem validateFooocusTaskArgs_accepts_nonstring_at_4 :
    validateFooocusTaskArgs (.arr vecNullAt4) = .ok ∧
    isStringV (vecNullAt4.getD 4 .undef) = false := by
  exact ⟨by decide, by decide⟩

end TaskArgs

namespace ServerArgs

theorem serverBuild_getD_5 (request : GenericRequest) :
    (buildFooocusTaskArgs request).getD 5 .undef =
      .str (normalizeAspectRatio
        (TaskArgs.asString (request "aspect_ratios_selection") "1024×1024")) := rfl

/-- Claim C6 (amended): in the `server.ts` copy of the builder, element 5 of
the returned vector is the aspect-ratio string with every occurrence of the
characters `x`, `X` and `*` replaced by the multiplication sign `×`; in
particular `build({aspect_ratios_selection:"1152*896"})[5] = "1152×896"`, and
likewise for `x` and `X`.  (The `fooocus-task-args.ts` copy of the builder
passes the aspect-ratio string through unchanged.) -/
theorem serverBuild_aspect_ratio_normalized :
    (∀ request : GenericRequest,
      (buildFooocusTaskArgs request).getD 5 .undef =
        .str (normalizeAspectRatio
          (TaskArgs.asString (request "aspect_ratios_selection") "1024×1024"))) ∧
    (∀ s : String,
      normalizeAspectRatio s =
        ⟨s.data.map (fun c => if c = 'x' ∨ c = 'X' ∨ c = '*' then '×' else c)⟩) ∧
    (buildFooocusTaskArgs reqAspectStar).getD 5 .undef = .str "1152×896" ∧
    normalizeAspectRatio "1152x896" = "1152×896" ∧
    normalizeAspectRatio "1152X896" = "1152×896" := by
  refine ⟨fun request => serverBuild_getD_5 request, fun s => rfl, by rfl, by decide,
    by decide⟩

/-- Counterexample to claim C6 as stated of `buildFooocusTaskArgs` in
`fooocus-task-args.ts` (the copy used by the worker manager): the `*` in the
aspect-ratio string is not replaced, so element 5 is `"1152*896"`, not
`"1152×896"`. -/
theorem taskArgsBuild_aspect_ratio_not_normalized :
    (TaskArgs.buildFooocusTaskArgs reqAspectStar).getD 5 .undef = .str "1152*896" ∧
    ("1152*896" : String) ≠ "1152×896" := by
  exact ⟨by rfl, by decide⟩

end ServerArgs

namespace Sched

theorem totalWeightOf_aux (l : List GPUState) (a : Int) :
    l.foldl (fun s g => s + g.config.weight) a =
      a + (l.map (fun g => g.config.weight)).sum := by
  induction l generalizing a with
  | nil => simp
  | cons g rest ih => simp [ih, add_assoc]

theorem totalWeightOf_eq_sum (l : List GPUState) :
    totalWeightOf l = (l.map (fun g => g.config.weight)).sum := by
  simpa using totalWeightOf_aux l 0

theorem weight_sum_pos (g : GPUState) (rest : List GPUState)
    (hw : ∀ x ∈ g :: rest, 1 ≤ x.config.weight) :
    0 < ((g :: rest).map (fun x => x.config.weight)).sum := by
  have h0 : (1 : Int) ≤ g.config.weight := hw g (by simp)
  have h1 : 0 ≤ (rest.map (fun x => x.config.weight)).sum := by
    apply List.sum_nonneg
    intro x hx
    simp only [List.mem_map] at hx
    obtain ⟨y, hy, rfl⟩ := hx
    exact le_trans zero_le_one (hw y (by simp [hy]))
  simp only [List.map_cons, List.sum_cons]
  omega

/-- Invariant of the proportional-allocation loop: as long as the remaining
count is large enough (`N * Σ weights ≤ r * W`), the loop allocates exactly
`r` images, every allocated count is positive, and the used slots form a
sublist of the candidate list. -/
theorem allocate_spec (l : List GPUState) (N W r : Int)
    (hl : l ≠ [])
    (hw : ∀ g ∈ l, 1 ≤ g.config.weight)
    (hW : 0 < W) (hN : 0 < N)
    (hr : N * (l.map (fun g => g.config.weight)).sum ≤ r * W) :
    ((allocate N W l r).map (fun x => x.2)).sum = r ∧
    (∀ x ∈ allocate N W l r, 0 < x.2) ∧
    ((allocate N W l r).map (fun x => x.1)).Sublist l ∧
    allocate N W l r ≠ [] := by
  induction l generalizing r with
  | nil => exact absurd rfl hl
  | cons g rest ih =>
    cases rest with
    | nil =>
      have hwg : (1 : Int) ≤ g.config.weight := hw g (by simp)
      have hNw : (1 : Int) ≤ N * g.config.weight := by nlinarith
      have hrW : (1 : Int) ≤ r * W := by
        simp only [List.map_cons, List.map_nil, List.sum_cons, List.sum_nil,
          add_zero] at hr
        omega
      have hrpos : 0 < r := by
        by_contra hle
        push_neg at hle
        nlinarith
      simp only [allocate]
      rw [if_pos hrpos]
      refine ⟨by simp, ?_, ?_, by simp⟩
      · intro x hx
        simp only [List.mem_singleton] at hx
        subst hx
        exact hrpos
      · simp
    | cons g2 rest2 =>
      have hwg : (1 : Int) ≤ g.config.weight := hw g (by simp)
      have hwrest : ∀ x ∈ g2 :: rest2, 1 ≤ x.config.weight := by
        intro x hx
        exact hw x (by simp [hx])
      have hsum2 : 0 < ((g2 :: rest2).map (fun x => x.config.weight)).sum :=
        weight_sum_pos g2 rest2 hwrest
      simp only [allocate]
      set count := Int.fdiv (N * g.config.weight) W with hcount
      have hfd : count = N * g.config.weight / W := by
        rw [hcount, Int.fdiv_eq_ediv _ hW.le]
      have hcW : count * W ≤ N * g.config.weight := by
        rw [hfd]
        exact Int.ediv_mul_le _ hW.ne'
      by_cases hpos : count > 0
      · have hr' : N * (((g2 :: rest2).map (fun x => x.config.weight)).sum) ≤
            (r - count) * W := by
          have hexp : N * ((g :: g2 :: rest2).map (fun x => x.config.weight)).sum =
              N * g.config.weight +
              N * ((g2 :: rest2).map (fun x => x.config.weight)).sum := by
            simp only [List.map_cons, List.sum_cons]
            ring
          rw [hexp] at hr
          have : (r - count) * W = r * W - count * W := by ring
          omega
        obtain ⟨ihsum, ihpos, ihsub, ihne⟩ := ih (r - count) (by simp) hwrest hr'
        rw [if_pos hpos]
        refine ⟨?_, ?_, ?_, by simp⟩
        · simp only [List.map_cons, List.sum_cons, ihsum]
          ring
        · intro x hx
          rcases List.mem_cons.mp hx with h | h
          · subst h; exact hpos
          · exact ihpos x h
        · exact List.Sublist.cons₂ g (by simpa using ihsub)
      · have hr' : N * (((g2 :: rest2).map (fun x => x.config.weight)).sum) ≤
            r * W := by
          have hNg : 0 ≤ N * g.config.weight := by nlinarith
          have hexp : N * ((g :: g2 :: rest2).map (fun x => x.config.weight)).sum =
              N * g.config.weight +
              N * ((g2 :: rest2).map (fun x => x.config.weight)).sum := by
            simp only [List.map_cons, List.sum_cons]
            ring
          omega
        obtain ⟨ihsum, ihpos, ihsub, ihne⟩ := ih r (by simp) hwrest hr'
        rw [if_neg hpos]
        exact ⟨ihsum, ihpos, List.Sublist.cons g (by simpa using ihsub), ihne⟩

theorem candidates_sublist (sch : GPUScheduler) : (candidates sch).Sublist sch.gpus := by
  unfold candidates
  split
  · exact List.filter_sublist sch.gpus
  · exact List.Sublist.refl _

theorem candidates_ne_nil (sch : GPUScheduler) (hne : sch.gpus ≠ []) :
    candidates sch ≠ [] := by
  unfold candidates
  split
  · rename_i h
    intro hc
    rw [hc] at h
    simp at h
  · exact hne

/-- Claim C2 (amended): for every scheduler state with a non-empty slot list,
all slot weights at least 1, pairwise-distinct device numbers and arbitrary
busy flags, and every `totalImages > 0`, `distributeImages` returns a
non-empty assignment list whose image counts sum to exactly `totalImages`,
with every count strictly positive and no device in more than one
assignment. -/
theorem distributeImages_conservation (sch : GPUScheduler) (N : Int)
    (hne : sch.gpus ≠ [])
    (hw : ∀ g ∈ sch.gpus, 1 ≤ g.config.weight)
    (hdev : (sch.gpus.map (fun g => g.config.device)).Nodup)
    (hN : 0 < N) :
    distributeImages sch N ≠ [] ∧
    ((distributeImages sch N).map (fun x => x.2)).sum = N ∧
    (∀ x ∈ distributeImages sch N, 0 < x.2) ∧
    ((distributeImages sch N).map (fun x => x.1.config.device)).Nodup := by
  rcases hcEq : candidates sch with _ | ⟨g0, rest⟩
  · exact absurd hcEq (candidates_ne_nil sch hne)
  · have hcsub := candidates_sublist sch
    rw [hcEq] at hcsub
    have hcw : ∀ g ∈ g0 :: rest, 1 ≤ g.config.weight :=
      fun g hg => hw g (hcsub.mem hg)
    unfold distributeImages
    rw [hcEq]
    dsimp only
    split_ifs with hcond hdist
    · refine ⟨by simp, by simp, ?_, by simp⟩
      intro x hx
      simp only [List.mem_singleton] at hx
      subst hx
      exact hN
    · refine ⟨by simp, by simp, ?_, by simp⟩
      intro x hx
      simp only [List.mem_singleton] at hx
      subst hx
      exact hN
    · have hWsum : totalWeightOf (g0 :: rest) =
          ((g0 :: rest).map (fun g => g.config.weight)).sum :=
        totalWeightOf_eq_sum _
      have hWpos : 0 < totalWeightOf (g0 :: rest) := by
        rw [hWsum]
        exact weight_sum_pos g0 rest hcw
      obtain ⟨hsum, hpos, hsub, hnil⟩ :=
        allocate_spec (g0 :: rest) N (totalWeightOf (g0 :: rest)) N
          (by simp) hcw hWpos hN (by rw [hWsum, mul_comm])
      have hfilter :
          (allocate N (totalWeightOf (g0 :: rest)) (g0 :: rest) N).filter
            (fun a => decide (a.2 > 0)) =
          allocate N (totalWeightOf (g0 :: rest)) (g0 :: rest) N := by
        apply List.filter_eq_self.mpr
        intro x hx
        exact decide_eq_true (hpos x hx)
      rw [hfilter]
      refine ⟨hnil, hsum, hpos, ?_⟩
      have hmapsub :
          ((allocate N (totalWeightOf (g0 :: rest)) (g0 :: rest) N).map
            (fun x => x.1.config.device)).Sublist
            ((sch.gpus).map (fun g => g.config.device)) := by
        have hs : ((allocate N (totalWeightOf (g0 :: rest)) (g0 :: rest) N).map
            (fun x => x.1)).Sublist sch.gpus := hsub.trans hcsub
        simpa [List.map_map, Function.comp] using hs.map (fun g => g.config.device)
      exact hdev.sublist hmapsub

/-- Counterexample to claim C2 as stated: with an empty slot list (weights
vacuously at least 1) the assignment list is empty, and with two idle slots
that share device 0 the same device appears in two assignments. -/
theorem distributeImages_cex :
    distributeImages schedEmpty 2 = [] ∧
    (distributeImages schedDup 2).map (fun x => x.1.config.device) = [0, 0] ∧
    ¬ ((distributeImages schedDup 2).map (fun x => x.1.config.device)).Nodup := by
  have h : (distributeImages schedDup 2).map (fun x => x.1.config.device) = [0, 0] := by
    decide
  refine ⟨by decide, h, ?_⟩
  rw [h]
  decide

/-- Claim C8 (amended): when the distribute flag is false `distributeImages`
assigns everything to the highest-weighted candidate (ties to the
later-declared slot), candidates being the available slots with fallback to
the full slot list; but when the flag is true and `totalImages ≤ 1` or only
one candidate exists, everything goes to the first candidate, not the
highest-weighted one. -/
theorem distributeImages_single_assignment (sch : GPUScheduler) (N : Int)
    (g0 : GPUState) (rest : List GPUState) (hc : candidates sch = g0 :: rest) :
    (sch.distribute = false →
      distributeImages sch N = [(bestByWeight g0 rest, N)]) ∧
    (sch.distribute = true → (N ≤ 1 ∨ rest = []) →
      distributeImages sch N = [(g0, N)]) ∧
    ((∀ g ∈ sch.gpus, g.busy = true) → candidates sch = sch.gpus) := by
  refine ⟨?_, ?_, ?_⟩
  · intro hdist
    unfold distributeImages
    rw [hc]
    dsimp only
    rw [if_pos (Or.inl hdist), if_pos hdist]
  · intro hdist hsmall
    have hcond : sch.distribute = false ∨ N ≤ 1 ∨ (g0 :: rest).length = 1 := by
      rcases hsmall with h | h
      · exact Or.inr (Or.inl h)
      · subst h
        exact Or.inr (Or.inr rfl)
    unfold distributeImages
    rw [hc]
    dsimp only
    rw [if_pos hcond, if_neg (by rw [hdist]; simp)]
  · intro hbusy
    unfold candidates getAvailableGPUs
    have hfil : sch.gpus.filter (fun g => !g.busy) = [] := by
      apply List.filter_eq_nil_iff.mpr
      intro g hg
      simp [hbusy g hg]
    rw [hfil]
    simp

/-- Counterexample to claim C8 as stated: with the distribute flag on, one
image and two idle candidates of weights 1 and 2, the single assignment goes
to the first-declared weight-1 slot even though an available slot with higher
weight exists. -/
theorem distributeImages_first_not_best :
    distributeImages schedLowFirst 1 = [(slotW1, 1)] ∧
    slotW1.config.weight = 1 ∧
    slotW2.config.weight = 2 ∧
    slotW2 ∈ getAvailableGPUs schedLowFirst := by
  exact ⟨rfl, rfl, rfl, by decide⟩

/-- Witness for the amended claim C8 at a concrete scheduler: the
distribute-off scheduler with idle slots of weights 1 and 2 sends everything
to the weight-2 slot, and the fallback facts hold. -/
theorem distributeImages_single_assignment_witness :
    candidates schedLowFirstNoDist = slotW1 :: [slotW2] ∧
    ((schedLowFirstNoDist.distribute = false →
      distributeImages schedLowFirstNoDist 1 = [(bestByWeight slotW1 [slotW2], 1)]) ∧
    (schedLowFirstNoDist.distribute = true → ((1 : Int) ≤ 1 ∨ [slotW2] = []) →
      distributeImages schedLowFirstNoDist 1 = [(slotW1, 1)]) ∧
    ((∀ g ∈ schedLowFirstNoDist.gpus, g.busy = true) →
      candidates schedLowFirstNoDist = schedLowFirstNoDist.gpus)) := by
  exact ⟨by decide, distributeImages_single_assignment schedLowFirstNoDist 1 slotW1
    [slotW2] (by decide)⟩

/-- Witness for the amended claim C2 at the spec's own example: weights
`[3, 1]` and 8 images give a non-empty assignment summing to 8 with positive
counts and distinct devices. -/
theorem distributeImages_conservation_witness :
    (sched31.gpus ≠ [] ∧ (∀ g ∈ sched31.gpus, 1 ≤ g.config.weight) ∧
      (sched31.gpus.map (fun g => g.config.device)).Nodup ∧ (0 : Int) < 8) ∧
    (distributeImages sched31 8 ≠ [] ∧
     ((distributeImages sched31 8).map (fun x => x.2)).sum = 8 ∧
     (∀ x ∈ distributeImages sched31 8, 0 < x.2) ∧
     ((distributeImages sched31 8).map (fun x => x.1.config.device)).Nodup) := by
  exact ⟨⟨by decide, by decide, by decide, by decide⟩,
    distributeImages_conservation sched31 8 (by decide) (by decide) (by decide)
      (by decide)⟩

theorem modifyIdx_pres (f : GPUState → GPUState) (P : GPUState → Prop)
    (hf : ∀ g, P g → P (f g)) (l : List GPUState) :
    ∀ j : Nat, (∀ g ∈ l, P g) → ∀ g ∈ modifyIdx l j f, P g := by
  induction l with
  | nil => intro j hP g hg; simp [modifyIdx] at hg
  | cons a rest ih =>
    intro j hP g hg
    cases j with
    | zero =>
      simp only [modifyIdx] at hg
      rcases List.mem_cons.mp hg with h | h
      · subst h; exact hf a (hP a (by simp))
      · exact hP g (by simp [h])
    | succ j' =>
      simp only [modifyIdx] at hg
      rcases List.mem_cons.mp hg with h | h
      · exact hP g (by simp [h])
      · exact ih j' (fun x hx => hP x (by simp [hx])) g h

theorem map_resetSlot_modifyIdx_decSlot (l : List GPUState) (j : Nat) :
    (modifyIdx l j decSlot).map resetSlot = l.map resetSlot := by
  induction l generalizing j with
  | nil => simp [modifyIdx]
  | cons a rest ih =>
    cases j with
    | zero => simp [modifyIdx, resetSlot, decSlot]
    | succ j' => simp [modifyIdx, ih j']

theorem sum_map_cw_modifyIdx_decSlot (l : List GPUState) (j : Nat) (hj : j < l.length) :
    ((modifyIdx l j decSlot).map (fun g => g.currentWeight)).sum =
      (l.map (fun g => g.currentWeight)).sum - 1 := by
  induction l generalizing j with
  | nil => simp at hj
  | cons a rest ih =>
    cases j with
    | zero => simp [modifyIdx, decSlot]; ring
    | succ j' =>
      have hj' : j' < rest.length := by simpa using hj
      simp [modifyIdx, ih j' hj']
      ring

theorem getD_map_cw_modifyIdx_decSlot (l : List GPUState) (j i : Nat)
    (hj : j < l.length) :
    ((modifyIdx l j decSlot).map (fun g => g.currentWeight)).getD i 0 =
      if i = j then (l.map (fun g => g.currentWeight)).getD i 0 - 1
      else (l.map (fun g => g.currentWeight)).getD i 0 := by
  induction l generalizing i j with
  | nil => simp at hj
  | cons a rest ih =>
    cases j with
    | zero =>
      cases i with
      | zero => simp [modifyIdx, decSlot]
      | succ i' => simp [modifyIdx]
    | succ j' =>
      have hj' : j' < rest.length := by simpa using hj
      cases i with
      | zero => simp [modifyIdx]
      | succ i' =>
        have := ih j' i' hj'
        simp only [modifyIdx, List.map_cons, List.getD_cons_succ, this]
        by_cases h : i' = j'
        · simp [h]
        · simp [h, fun hc => h (Nat.succ_injective hc)]

theorem int_list_sum_zero_all_zero (l : List Int) (hpos : ∀ x ∈ l, 0 ≤ x)
    (hsum : l.sum = 0) : ∀ x ∈ l, x = 0 := by
  induction l with
  | nil => intro x hx; simp at hx
  | cons a rest ih =>
    have ha : 0 ≤ a := hpos a (by simp)
    have hrest : 0 ≤ rest.sum :=
      List.sum_nonneg (fun x hx => hpos x (by simp [hx]))
    simp only [List.sum_cons] at hsum
    have ha0 : a = 0 := by omega
    have hr0 : rest.sum = 0 := by omega
    intro x hx
    rcases List.mem_cons.mp hx with h | h
    · subst h; exact ha0
    · exact ih (fun y hy => hpos y (by simp [hy])) hr0 x h

theorem int_list_sum_pos_exists (l : List Int) (hpos : ∀ x ∈ l, 0 ≤ x)
    (hsum : 0 < l.sum) : ∃ x ∈ l, 0 < x := by
  by_contra hno
  push_neg at hno
  have : ∀ x ∈ l, x = 0 := by
    intro x hx
    have := hno x hx
    have := hpos x hx
    omega
  have : l.sum = 0 := by
    apply List.sum_eq_zero
    exact this
  omega

/-- Characterization of the `for`-loop scan of `selectGPU` when the predicate
holds of every slot: the result bounds every slot's `currentWeight` from
above, and either the accumulator is returned unchanged (when nothing beats
it) or the result names the first slot attaining the maximum. -/
theorem bestScan_spec (p : GPUState → Bool) (l : List GPUState)
    (hall : ∀ g ∈ l, p g = true) (i0 : Int) (acc : Int × Int) :
    (∀ g ∈ l, g.currentWeight ≤ (bestScan p l i0 acc).2) ∧
    acc.2 ≤ (bestScan p l i0 acc).2 ∧
    (bestScan p l i0 acc = acc ∨
      ∃ j, ∃ hj : j < l.length,
        (bestScan p l i0 acc).1 = i0 + (j : Int) ∧
        (bestScan p l i0 acc).2 = (l.get ⟨j, hj⟩).currentWeight ∧
        acc.2 < (bestScan p l i0 acc).2 ∧
        ∀ k, ∀ hk : k < j,
          (l.get ⟨k, lt_trans hk hj⟩).currentWeight <
            (bestScan p l i0 acc).2) := by
  induction l generalizing i0 acc with
  | nil => exact ⟨by simp, le_refl _, Or.inl rfl⟩
  | cons g rest ih =>
    have hg : p g = true := hall g (by simp)
    have hrest : ∀ x ∈ rest, p x = true := fun x hx => hall x (by simp [hx])
    by_cases hbeat : g.currentWeight > acc.2
    · have hstep : bestScan p (g :: rest) i0 acc =
          bestScan p rest (i0 + 1) (i0, g.currentWeight) := by
        simp [bestScan, hg, hbeat]
      obtain ⟨ub, ge, cases'⟩ := ih hrest (i0 + 1) (i0, g.currentWeight)
      rw [hstep]
      refine ⟨?_, le_trans (le_of_lt hbeat) ge, ?_⟩
      · intro x hx
        rcases List.mem_cons.mp hx with h | h
        · subst h; exact ge
        · exact ub x h
      · rcases cases' with hacc | ⟨j, hj, h1, h2, h3, h4⟩
        · refine Or.inr ⟨0, by simp, ?_, ?_, ?_, ?_⟩
          · rw [hacc]; simp
          · rw [hacc]; simp
          · rw [hacc]; exact hbeat
          · intro k hk; omega
        · refine Or.inr ⟨j + 1, by simpa using Nat.succ_lt_succ hj, ?_, ?_, ?_, ?_⟩
          · rw [h1]; push_cast; ring
          · simpa using h2
          · exact lt_trans hbeat h3
          · intro k hk
            cases k with
            | zero => simpa using h3
            | succ k' =>
              have hk' : k' < j := by omega
              simpa using h4 k' hk'
    · have hstep : bestScan p (g :: rest) i0 acc =
          bestScan p rest (i0 + 1) acc := by
        simp [bestScan, hg, hbeat]
      obtain ⟨ub, ge, cases'⟩ := ih hrest (i0 + 1) acc
      rw [hstep]
      push_neg at hbeat
      refine ⟨?_, ge, ?_⟩
      · intro x hx
        rcases List.mem_cons.mp hx with h | h
        · subst h; exact le_trans hbeat ge
        · exact ub x h
      · rcases cases' with hacc | ⟨j, hj, h1, h2, h3, h4⟩
        · exact Or.inl hacc
        · refine Or.inr ⟨j + 1, by simpa using Nat.succ_lt_succ hj, ?_, ?_, h3, ?_⟩
          · rw [h1]; push_cast; ring
          · simpa using h2
          · intro k hk
            cases k with
            | zero =>
              simpa using lt_of_le_of_lt hbeat h3
            | succ k' =>
              have hk' : k' < j := by omega
              simpa using h4 k' hk'

theorem modifyIdx_length (l : List GPUState) (j : Nat) (f : GPUState → GPUState) :
    (modifyIdx l j f).length = l.length := by
  induction l generalizing j with
  | nil => simp [modifyIdx]
  | cons a rest ih =>
    cases j with
    | zero => simp [modifyIdx]
    | succ j' => simp [modifyIdx, ih j']

theorem mem_modifyIdx (l : List GPUState) (j : Nat) (f : GPUState → GPUState) :
    ∀ x ∈ modifyIdx l j f,
      x ∈ l ∨ ∃ hj : j < l.length, x = f (l.get ⟨j, hj⟩) := by
  induction l generalizing j with
  | nil => intro x hx; simp [modifyIdx] at hx
  | cons a rest ih =>
    intro x hx
    cases j with
    | zero =>
      simp only [modifyIdx] at hx
      rcases List.mem_cons.mp hx with h | h
      · exact Or.inr ⟨by simp, by simpa using h⟩
      · exact Or.inl (by simp [h])
    | succ j' =>
      simp only [modifyIdx] at hx
      rcases List.mem_cons.mp hx with h | h
      · exact Or.inl (by simp [h])
      · rcases ih j' x h with h' | ⟨hj', he⟩
        · exact Or.inl (by simp [h'])
        · exact Or.inr ⟨by simpa using Nat.succ_lt_succ hj', by simpa using he⟩

/-- Behavior of `selectGPU` on an enabled scheduler whose slots are all idle
with non-negative `currentWeight`s, at least one positive: the call picks the
first slot of maximal `currentWeight`, decrements it, and refills every slot
exactly when all `currentWeight`s have reached zero. -/
theorem selectGPU_spec (sch : GPUScheduler)
    (hen : sch.enabled = true)
    (hne : sch.gpus ≠ [])
    (hidle : ∀ g ∈ sch.gpus, g.busy = false)
    (hex : ∃ g ∈ sch.gpus, 0 < g.currentWeight) :
    ∃ j, ∃ hj : j < sch.gpus.length,
      (selectGPU sch).1 = some j ∧
      0 < (sch.gpus.get ⟨j, hj⟩).currentWeight ∧
      (∀ g ∈ sch.gpus, g.currentWeight ≤ (sch.gpus.get ⟨j, hj⟩).currentWeight) ∧
      (∀ k, ∀ hk : k < j, (sch.gpus.get ⟨k, lt_trans hk hj⟩).currentWeight <
        (sch.gpus.get ⟨j, hj⟩).currentWeight) ∧
      (selectGPU sch).2 =
        { sch with gpus :=
            if (modifyIdx sch.gpus j decSlot).all (fun g => g.currentWeight ≤ 0)
            then (modifyIdx sch.gpus j decSlot).map resetSlot
            else modifyIdx sch.gpus j decSlot } := by
  obtain ⟨ub, hge, hcases⟩ := bestScan_spec (fun g => !g.busy) sch.gpus
    (fun g hg => by simp [hidle g hg]) 0 (-1, -1)
  obtain ⟨gp, hgp, hgppos⟩ := hex
  rcases hcases with hacc | ⟨j, hj, h1, h2, h3, h4⟩
  · exfalso
    have hle := ub gp hgp
    rw [hacc] at hle
    omega
  · have hlenne : sch.gpus.length ≠ 0 := by
      intro h
      exact hne (List.length_eq_zero.mp h)
    have hcond : ¬ (sch.enabled = false ∨ sch.gpus.length = 0) := by
      simp [hen, hlenne]
    have hne1 : ¬ ((bestScan (fun g => !g.busy) sch.gpus 0 (-1, -1)).1 = -1) := by
      rw [h1]
      omega
    have hidx : (bestScan (fun g => !g.busy) sch.gpus 0 (-1, -1)).1.toNat = j := by
      rw [h1]
      simp
    have hsel : selectGPU sch =
        (some j,
         { sch with gpus :=
            if (modifyIdx sch.gpus j decSlot).all (fun g => g.currentWeight ≤ 0)
            then (modifyIdx sch.gpus j decSlot).map resetSlot
            else modifyIdx sch.gpus j decSlot }) := by
      unfold selectGPU
      rw [if_neg hcond]
      dsimp only
      simp only [if_neg hne1, hidx]
    have hjcw : (sch.gpus.get ⟨j, hj⟩).currentWeight =
        (bestScan (fun g => !g.busy) sch.gpus 0 (-1, -1)).2 := h2.symm
    refine ⟨j, hj, by rw [hsel], ?_, ?_, ?_, by rw [hsel]⟩
    · rw [hjcw]
      exact lt_of_lt_of_le hgppos (ub gp hgp)
    · intro g hg
      rw [hjcw]
      exact ub g hg
    · intro k hk
      rw [hjcw]
      exact h4 k hk

/-- One full round of the weighted round-robin: starting from an enabled,
all-idle state whose `currentWeight`s are non-negative and sum to `k > 0`,
the next `k` calls to `selectGPU` pick each slot index exactly its
`currentWeight` many times and leave the scheduler refilled via `resetSlot`. -/
theorem runSelect_round (k : Nat) :
    ∀ sch : GPUScheduler,
      sch.enabled = true →
      sch.gpus ≠ [] →
      (∀ g ∈ sch.gpus, g.busy = false) →
      (∀ g ∈ sch.gpus, 0 ≤ g.currentWeight) →
      (sch.gpus.map (fun g => g.currentWeight)).sum = (k : Int) →
      0 < k →
      (runSelect sch k).1 = { sch with gpus := sch.gpus.map resetSlot } ∧
      ∀ i : Nat, ((runSelect sch k).2.count i : Int) =
        (sch.gpus.map (fun g => g.currentWeight)).getD i 0 := by
  induction k with
  | zero =>
    intro sch _ _ _ _ _ hk
    omega
  | succ k ih =>
    intro sch hen hne hidle hpos hsum hk
    have hex : ∃ g ∈ sch.gpus, 0 < g.currentWeight := by
      have hpos' : ∀ x ∈ sch.gpus.map (fun g => g.currentWeight), 0 ≤ x := by
        intro x hx
        simp only [List.mem_map] at hx
        obtain ⟨g, hg, rfl⟩ := hx
        exact hpos g hg
      have hspos : 0 < (sch.gpus.map (fun g => g.currentWeight)).sum := by
        rw [hsum]
        positivity
      obtain ⟨x, hx, hxpos⟩ := int_list_sum_pos_exists _ hpos' hspos
      simp only [List.mem_map] at hx
      obtain ⟨g, hg, rfl⟩ := hx
      exact ⟨g, hg, hxpos⟩
    obtain ⟨j, hj, hpick, hjpos, hub, hties, hstate⟩ :=
      selectGPU_spec sch hen hne hidle hex
    have hl'len : (modifyIdx sch.gpus j decSlot).length = sch.gpus.length :=
      modifyIdx_length _ _ _
    have hl'sum : ((modifyIdx sch.gpus j decSlot).map
        (fun g => g.currentWeight)).sum =
        (sch.gpus.map (fun g => g.currentWeight)).sum - 1 :=
      sum_map_cw_modifyIdx_decSlot _ _ hj
    have hl'pos : ∀ g ∈ modifyIdx sch.gpus j decSlot, 0 ≤ g.currentWeight := by
      intro g hg
      rcases mem_modifyIdx _ _ _ g hg with h | ⟨hj', he⟩
      · exact hpos g h
      · rw [he]
        simp only [decSlot]
        omega
    have hl'idle : ∀ g ∈ modifyIdx sch.gpus j decSlot, g.busy = false :=
      modifyIdx_pres decSlot (fun g => g.busy = false) (fun g h => h)
        sch.gpus j hidle
    have hgetD : ∀ i : Nat,
        ((modifyIdx sch.gpus j decSlot).map (fun g => g.currentWeight)).getD i 0 =
          if i = j then (sch.gpus.map (fun g => g.currentWeight)).getD i 0 - 1
          else (sch.gpus.map (fun g => g.currentWeight)).getD i 0 :=
      fun i => getD_map_cw_modifyIdx_decSlot _ _ _ hj
    rcases Nat.eq_zero_or_pos k with hk0 | hkpos
    · subst hk0
      have hz : ∀ x ∈ (modifyIdx sch.gpus j decSlot).map
          (fun g => g.currentWeight), x = 0 := by
        apply int_list_sum_zero_all_zero
        · intro x hx
          simp only [List.mem_map] at hx
          obtain ⟨g, hg, rfl⟩ := hx
          exact hl'pos g hg
        · rw [hl'sum, hsum]
          simp
      have hall : (modifyIdx sch.gpus j decSlot).all
          (fun g => g.currentWeight ≤ 0) = true := by
        apply List.all_eq_true.mpr
        intro g hg
        have : g.currentWeight = 0 := by
          apply hz
          exact List.mem_map_of_mem _ hg
        simp [this]
      have hstate' : (selectGPU sch).2 =
          { sch with gpus := sch.gpus.map resetSlot } := by
        rw [hstate, if_pos hall, map_resetSlot_modifyIdx_decSlot]
      have hrun : runSelect sch 1 = ((selectGPU sch).2, [j]) := by
        simp only [runSelect]
        rw [hpick]
        rfl
      constructor
      · rw [hrun, hstate']
      · intro i
        rw [hrun]
        have hzi : ∀ i : Nat, ((modifyIdx sch.gpus j decSlot).map
            (fun g => g.currentWeight)).getD i 0 = 0 := by
          intro i'
          rcases Nat.lt_or_ge i' ((modifyIdx sch.gpus j decSlot).map
              (fun g => g.currentWeight)).length with hlt | hge'
          · rw [List.getD_eq_getElem _ _ hlt]
            exact hz _ (List.getElem_mem hlt)
          · exact List.getD_eq_default _ _ hge'
        have hgi := hgetD i
        rw [hzi i] at hgi
        by_cases hij : i = j
        · rw [if_pos hij] at hgi
          have h1 : ([j] : List Nat).count i = 1 := by
            subst hij
            simp
          show ((([j] : List Nat).count i : Nat) : Int) = _
          rw [h1]
          omega
        · rw [if_neg hij] at hgi
          have h1 : ([j] : List Nat).count i = 0 :=
            List.count_eq_zero.mpr (by simp [hij])
          show ((([j] : List Nat).count i : Nat) : Int) = _
          rw [h1]
          omega
    · have hexl' : ∃ g ∈ modifyIdx sch.gpus j decSlot, 0 < g.currentWeight := by
        have hpos' : ∀ x ∈ (modifyIdx sch.gpus j decSlot).map
            (fun g => g.currentWeight), 0 ≤ x := by
          intro x hx
          simp only [List.mem_map] at hx
          obtain ⟨g, hg, rfl⟩ := hx
          exact hl'pos g hg
        have hspos : 0 < ((modifyIdx sch.gpus j decSlot).map
            (fun g => g.currentWeight)).sum := by
          rw [hl'sum, hsum]
          push_cast
          omega
        obtain ⟨x, hx, hxpos⟩ := int_list_sum_pos_exists _ hpos' hspos
        simp only [List.mem_map] at hx
        obtain ⟨g, hg, rfl⟩ := hx
        exact ⟨g, hg, hxpos⟩
      have hall : (modifyIdx sch.gpus j decSlot).all
          (fun g => g.currentWeight ≤ 0) = false := by
        obtain ⟨g, hg, hgpos⟩ := hexl'
        apply Bool.eq_false_iff.mpr
        intro hcontra
        have := List.all_eq_true.mp hcontra g hg
        simp at this
        omega
      have hstate' : (selectGPU sch).2 =
          { sch with gpus := modifyIdx sch.gpus j decSlot } := by
        rw [hstate, if_neg (by simp [hall])]
      have hne' : ({ sch with gpus := modifyIdx sch.gpus j decSlot } :
          GPUScheduler).gpus ≠ [] := by
        intro h
        have := congrArg List.length h
        simp only [hl'len] at this
        exact hne (List.length_eq_zero.mp (by simpa using this))
      have hsum' : (({ sch with gpus := modifyIdx sch.gpus j decSlot } :
          GPUScheduler).gpus.map (fun g => g.currentWeight)).sum = (k : Int) := by
        show ((modifyIdx sch.gpus j decSlot).map (fun g => g.currentWeight)).sum =
          (k : Int)
        rw [hl'sum, hsum]
        push_cast
        ring
      obtain ⟨ihstate, ihcount⟩ :=
        ih { sch with gpus := modifyIdx sch.gpus j decSlot } hen hne' hl'idle
          hl'pos hsum' hkpos
      have hrun : runSelect sch (k + 1) =
          ((runSelect { sch with gpus := modifyIdx sch.gpus j decSlot } k).1,
           j :: (runSelect { sch with gpus := modifyIdx sch.gpus j decSlot } k).2) := by
        simp only [runSelect]
        rw [hpick, hstate']
        rfl
      constructor
      · rw [hrun, ihstate, map_resetSlot_modifyIdx_decSlot]
      · intro i
        rw [hrun]
        have hgi := hgetD i
        have hci := ihcount i
        set picks := (runSelect { sch with gpus := modifyIdx sch.gpus j decSlot } k).2
          with hpicks
        by_cases hij : i = j
        · rw [if_pos hij] at hgi
          rw [hgi] at hci
          have h1 : (j :: picks).count i = picks.count i + 1 := by
            rw [hij]
            exact List.count_cons_self _ _
          show (((j :: picks).count i : Nat) : Int) = _
          rw [h1]
          push_cast
          omega
        · rw [if_neg hij] at hgi
          rw [hgi] at hci
          have h1 : (j :: picks).count i = picks.count i :=
            List.count_cons_of_ne hij _
          show (((j :: picks).count i : Nat) : Int) = _
          rw [h1]
          omega

theorem runSelect_add (m n : Nat) : ∀ sch : GPUScheduler,
    runSelect sch (m + n) =
      ((runSelect (runSelect sch m).1 n).1,
       (runSelect sch m).2 ++ (runSelect (runSelect sch m).1 n).2) := by
  induction m with
  | zero =>
    intro sch
    simp [runSelect]
  | succ m ihm =>
    intro sch
    have h : m + 1 + n = (m + n) + 1 := by omega
    rw [h]
    simp only [runSelect]
    rw [ihm (selectGPU sch).2]
    simp [List.append_assoc]

theorem resetSlot_of_init (g : GPUState) (h : g.currentWeight = g.config.weight) :
    resetSlot g = g := by
  cases g with
  | mk config busy port currentWeight =>
    simp only [resetSlot]
    simp at h
    simp [h]

/-- Claim C7: on an enabled scheduler whose slots are all idle with
`currentWeight` equal to the configured weight (the startup state) and whose
weights sum to `W`, the first `W` calls to `selectGPU` return each slot index
exactly its weight many times, the first `2·W` calls exactly twice its weight
many times, and the selected slot is always the first-declared one among those
of maximal `currentWeight` (ties broken in declaration order). -/
theorem selectGPU_round_robin_fairness (sch : GPUScheduler) (W : Nat)
    (hen : sch.enabled = true)
    (hne : sch.gpus ≠ [])
    (hidle : ∀ g ∈ sch.gpus, g.busy = false)
    (hw : ∀ g ∈ sch.gpus, 1 ≤ g.config.weight)
    (hinit : ∀ g ∈ sch.gpus, g.currentWeight = g.config.weight)
    (hW : (sch.gpus.map (fun g => g.config.weight)).sum = (W : Int)) :
    (∀ i : Nat, ((runSelect sch W).2.count i : Int) =
      (sch.gpus.map (fun g => g.config.weight)).getD i 0) ∧
    (∀ i : Nat, ((runSelect sch (W + W)).2.count i : Int) =
      2 * (sch.gpus.map (fun g => g.config.weight)).getD i 0) ∧
    (∀ j, ∀ hj : j < sch.gpus.length, (selectGPU sch).1 = some j →
      (∀ g ∈ sch.gpus, g.currentWeight ≤ (sch.gpus.get ⟨j, hj⟩).currentWeight) ∧
      (∀ k, ∀ hk : k < j, (sch.gpus.get ⟨k, lt_trans hk hj⟩).currentWeight <
        (sch.gpus.get ⟨j, hj⟩).currentWeight)) := by
  have hcw : sch.gpus.map (fun g => g.currentWeight) =
      sch.gpus.map (fun g => g.config.weight) :=
    List.map_congr_left (fun g hg => hinit g hg)
  have hpos : ∀ g ∈ sch.gpus, 0 ≤ g.currentWeight := by
    intro g hg
    rw [hinit g hg]
    exact le_trans zero_le_one (hw g hg)
  have hWpos : 0 < W := by
    rcases hne' : sch.gpus with _ | ⟨g0, rest⟩
    · exact absurd hne' hne
    · have := weight_sum_pos g0 rest (by rw [← hne']; exact hw)
      rw [← hne', hW] at this
      exact_mod_cast this
  have hsum : (sch.gpus.map (fun g => g.currentWeight)).sum = (W : Int) := by
    rw [hcw]
    exact hW
  obtain ⟨hst, hcount⟩ := runSelect_round W sch hen hne hidle hpos hsum hWpos
  have hreset : sch.gpus.map resetSlot = sch.gpus := by
    have h1 : sch.gpus.map resetSlot = sch.gpus.map id :=
      List.map_congr_left (fun g hg => resetSlot_of_init g (hinit g hg))
    rw [h1, List.map_id]
  have hstid : (runSelect sch W).1 = sch := by
    rw [hst, hreset]
  refine ⟨?_, ?_, ?_⟩
  · intro i
    rw [hcount i, hcw]
  · intro i
    rw [runSelect_add W W sch, hstid]
    show (((runSelect sch W).2 ++ (runSelect sch W).2).count i : Int) = _
    rw [List.count_append]
    push_cast
    rw [hcount i, hcw]
    ring
  · intro j hj hjpick
    have hex : ∃ g ∈ sch.gpus, 0 < g.currentWeight := by
      rcases hne' : sch.gpus with _ | ⟨g0, rest⟩
      · exact absurd hne' hne
      · refine ⟨g0, by simp, ?_⟩
        have hg0 : g0 ∈ sch.gpus := by rw [hne']; simp
        rw [hinit g0 hg0]
        exact lt_of_lt_of_le zero_lt_one (hw g0 hg0)
    obtain ⟨j', hj', hpick', hpos', hub', hties', _⟩ :=
      selectGPU_spec sch hen hne hidle hex
    have hjj : j = j' := by
      rw [hjpick] at hpick'
      exact Option.some.inj hpick'
    subst hjj
    exact ⟨hub', hties'⟩

/-- Witness for claim C7 at the scheduler with idle weights `[3, 1]`
(`W = 4`): over 4 calls slot 0 is picked 3 times and slot 1 once; over 8
calls, 6 and 2 times. -/
theorem selectGPU_round_robin_fairness_witness :
    (sched31.enabled = true ∧ sched31.gpus ≠ [] ∧
     (∀ g ∈ sched31.gpus, g.busy = false) ∧
     (∀ g ∈ sched31.gpus, 1 ≤ g.config.weight) ∧
     (∀ g ∈ sched31.gpus, g.currentWeight = g.config.weight) ∧
     (sched31.gpus.map (fun g => g.config.weight)).sum = ((4 : Nat) : Int)) ∧
    ((runSelect sched31 4).2.count 0 : Int) =
      (sched31.gpus.map (fun g => g.config.weight)).getD 0 0 ∧
    ((runSelect sched31 4).2.count 1 : Int) =
      (sched31.gpus.map (fun g => g.config.weight)).getD 1 0 ∧
    ((runSelect sched31 (4 + 4)).2.count 0 : Int) =
      2 * (sched31.gpus.map (fun g => g.config.weight)).getD 0 0 ∧
    ((runSelect sched31 (4 + 4)).2.count 1 : Int) =
      2 * (sched31.gpus.map (fun g => g.config.weight)).getD 1 0 := by
  have h := selectGPU_round_robin_fairness sched31 4 (by decide) (by decide)
    (by decide) (by decide) (by decide) (by decide)
  exact ⟨⟨by decide, by decide, by decide, by decide, by decide, by decide⟩,
    h.1 0, h.1 1, h.2.1 0, h.2.1 1⟩

end Sched

namespace Server

theorem subTaskBodies_length (body : String → JVal) (s : Int) (ns : List Int) :
    (subTaskBodies body s ns).length = ns.length := by
  induction ns generalizing s with
  | nil => rfl
  | cons n rest ih => simp [subTaskBodies, ih]

/-- Claim C5: for a `/generate` submission with resolved base seed `s` and
assignment image counts `ns`, the sub-task body at index `i` carries
`image_seed = s + Σ_{j<i} ns_j` and `seed_random = false`, its `image_number`
is `ns_i`, and every other field equals the parent body's. -/
theorem subTaskBodies_spec (body : String → JVal) (s : Int) (ns : List Int)
    (i : Nat) (hi : i < ns.length) :
    ((subTaskBodies body s ns).getD i (fun _ => .undef)) "image_seed" =
      .num (.fin ((s + (ns.take i).sum : Int) : ℚ)) ∧
    ((subTaskBodies body s ns).getD i (fun _ => .undef)) "seed_random" =
      .bool false ∧
    ((subTaskBodies body s ns).getD i (fun _ => .undef)) "image_number" =
      .num (.fin ((ns.getD i 0 : Int) : ℚ)) ∧
    ∀ k : String, k ≠ "image_number" → k ≠ "image_seed" → k ≠ "seed_random" →
      ((subTaskBodies body s ns).getD i (fun _ => .undef)) k = body k := by
  induction ns generalizing s i with
  | nil => simp at hi
  | cons n rest ih =>
    cases i with
    | zero =>
      refine ⟨?_, by rfl, by rfl, ?_⟩
      · have hz : s + ((n :: rest).take 0).sum = s := by simp
        rw [hz]
        rfl
      · intro k hk1 hk2 hk3
        simp only [subTaskBodies, List.getD_cons_zero]
        rw [if_neg hk1, if_neg hk2, if_neg hk3]
    | succ i' =>
      have hi' : i' < rest.length := by simpa using hi
      obtain ⟨h1, h2, h3, h4⟩ := ih (s + n) i' hi'
      have hgd : (subTaskBodies body s (n :: rest)).getD (i' + 1)
          (fun _ => .undef) =
          (subTaskBodies body (s + n) rest).getD i' (fun _ => .undef) := rfl
      have hsum : s + ((n :: rest).take (i' + 1)).sum =
          s + n + (rest.take i').sum := by
        simp [List.take_succ_cons, add_assoc]
      rw [hgd, hsum]
      exact ⟨h1, h2, h3, h4⟩

/-- Witness for claim C5 at a concrete submission: base seed 100 and
assignment counts `[6, 2]`; the second sub-task body carries seed
`100 + 6 = 106`, a non-random-seed flag, image count 2, and the parent's
other fields. -/
theorem subTaskBodies_spec_witness :
    (1 < ([6, 2] : List Int).length) ∧
    (((subTaskBodies wBody 100 [6, 2]).getD 1 (fun _ => .undef)) "image_seed" =
      .num (.fin ((100 + (([6, 2] : List Int).take 1).sum : Int) : ℚ)) ∧
    ((subTaskBodies wBody 100 [6, 2]).getD 1 (fun _ => .undef)) "seed_random" =
      .bool false ∧
    ((subTaskBodies wBody 100 [6, 2]).getD 1 (fun _ => .undef)) "image_number" =
      .num (.fin ((([6, 2] : List Int).getD 1 0 : Int) : ℚ)) ∧
    ∀ k : String, k ≠ "image_number" → k ≠ "image_seed" → k ≠ "seed_random" →
      ((subTaskBodies wBody 100 [6, 2]).getD 1 (fun _ => .undef)) k = wBody k) :=
  ⟨by decide, subTaskBodies_spec wBody 100 [6, 2] 1 (by decide)⟩

theorem pollStep_of_finished (st : TaskStatus) (r : PollResponse)
    (h : st.finished = true) : pollStep st r = (st, none) := by
  simp [pollStep, h]

theorem pollStep_state (st : TaskStatus) (r : PollResponse)
    (h : st.finished = false) :
    ((pollStep st r).1).finished = false ∧
    ((pollStep st r).1).percentage = max st.percentage r.percentage := by
  unfold pollStep
  rw [if_neg (by simp [h])]
  by_cases hupd : (r.percentage > st.percentage ∨ previewTruthy r.preview = true)
  · rw [if_pos hupd]
    exact ⟨h, rfl⟩
  · rw [if_neg hupd]
    push_neg at hupd
    exact ⟨h, (max_eq_left hupd.1).symm⟩

theorem pollStep_pub (st : TaskStatus) (r : PollResponse) (u : TaskStatus)
    (hpub : (pollStep st r).2 = some u) : u = (pollStep st r).1 := by
  unfold pollStep at hpub ⊢
  by_cases h1 : st.finished = true
  · rw [if_pos h1] at hpub
    simp at hpub
  · rw [if_neg h1] at hpub ⊢
    by_cases h2 : (r.percentage > st.percentage ∨ previewTruthy r.preview = true)
    · rw [if_pos h2] at hpub ⊢
      simp only [Option.some.injEq] at hpub
      exact hpub.symm
    · rw [if_neg h2] at hpub
      simp at hpub

theorem processPolls_of_finished (st : TaskStatus) (polls : List PollResponse)
    (h : st.finished = true) : processPolls st polls = (st, []) := by
  induction polls with
  | nil => rfl
  | cons r rest ih =>
    simp only [processPolls]
    rw [pollStep_of_finished st r h]
    simp [ih]

theorem processPolls_state (polls : List PollResponse) :
    ∀ st : TaskStatus, st.finished = false →
      ((processPolls st polls).1).finished = false ∧
      ((processPolls st polls).1).percentage =
        List.foldl max st.percentage (polls.map (fun r => r.percentage)) := by
  induction polls with
  | nil => intro st h; exact ⟨h, rfl⟩
  | cons r rest ih =>
    intro st h
    obtain ⟨h1, h2⟩ := pollStep_state st r h
    obtain ⟨ih1, ih2⟩ := ih (pollStep st r).1 h1
    have hred : (processPolls st (r :: rest)).1 =
        (processPolls (pollStep st r).1 rest).1 := rfl
    refine ⟨by rw [hred]; exact ih1, ?_⟩
    rw [hred, ih2, h2]
    rfl

theorem processPolls_pubs_not_finished (polls : List PollResponse) :
    ∀ st : TaskStatus, st.finished = false →
      ∀ u ∈ (processPolls st polls).2, u.finished = false := by
  induction polls with
  | nil => intro st h u hu; simp [processPolls] at hu
  | cons r rest ih =>
    intro st h u hu
    obtain ⟨h1, _⟩ := pollStep_state st r h
    have hred : (processPolls st (r :: rest)).2 =
        (pollStep st r).2.toList ++ (processPolls (pollStep st r).1 rest).2 := rfl
    rw [hred] at hu
    rcases List.mem_append.mp hu with hl | hr
    · have hpub : (pollStep st r).2 = some u := by
        cases hps : (pollStep st r).2 with
        | none => rw [hps] at hl; simp at hl
        | some w =>
          rw [hps] at hl
          simp only [Option.toList_some, List.mem_singleton] at hl
          rw [hl]
      rw [pollStep_pub st r u hpub]
      exact h1
    · exact ih (pollStep st r).1 h1 u hr

theorem processPolls_pubs_snapshots (polls : List PollResponse) :
    ∀ st : TaskStatus, ∀ u ∈ (processPolls st polls).2,
      ∃ k, k ≤ polls.length ∧ u = (processPolls st (polls.take k)).1 := by
  induction polls with
  | nil => intro st u hu; simp [processPolls] at hu
  | cons r rest ih =>
    intro st u hu
    have hred : (processPolls st (r :: rest)).2 =
        (pollStep st r).2.toList ++ (processPolls (pollStep st r).1 rest).2 := rfl
    rw [hred] at hu
    rcases List.mem_append.mp hu with hl | hr
    · have hpub : (pollStep st r).2 = some u := by
        cases hps : (pollStep st r).2 with
        | none => rw [hps] at hl; simp at hl
        | some w =>
          rw [hps] at hl
          simp only [Option.toList_some, List.mem_singleton] at hl
          rw [hl]
      refine ⟨1, by simp, ?_⟩
      rw [pollStep_pub st r u hpub]
      rfl
    · obtain ⟨k, hk, he⟩ := ih (pollStep st r).1 u hr
      refine ⟨k + 1, by simpa using Nat.succ_le_succ hk, ?_⟩
      rw [he]
      rfl

theorem processPolls_chain (polls : List PollResponse) :
    ∀ st c : TaskStatus,
      st.finished = false → st.percentage ≤ 100 →
      (∀ r ∈ polls, r.percentage ≤ 100) → c.percentage = 100 →
      List.Chain' (fun a b => a.percentage ≤ b.percentage)
        (st :: ((processPolls st polls).2 ++ [c])) := by
  induction polls with
  | nil =>
    intro st c hfin hcap hobs hc
    simp only [processPolls, List.nil_append]
    exact List.chain'_cons.mpr ⟨by rw [hc]; exact hcap, List.chain'_singleton c⟩
  | cons r rest ih =>
    intro st c hfin hcap hobs hc
    obtain ⟨h1, h2⟩ := pollStep_state st r hfin
    have hcap' : ((pollStep st r).1).percentage ≤ 100 := by
      rw [h2]
      exact max_le hcap (hobs r (by simp))
    have hobs' : ∀ x ∈ rest, x.percentage ≤ 100 :=
      fun x hx => hobs x (by simp [hx])
    have hred : (processPolls st (r :: rest)).2 =
        (pollStep st r).2.toList ++ (processPolls (pollStep st r).1 rest).2 := rfl
    rw [hred]
    cases hps : (pollStep st r).2 with
    | none =>
      have hst : (pollStep st r).1 = st := by
        unfold pollStep at hps ⊢
        by_cases hf : st.finished = true
        · rw [if_pos hf]
        · rw [if_neg hf] at hps ⊢
          by_cases hu : (r.percentage > st.percentage ∨ previewTruthy r.preview = true)
          · rw [if_pos hu] at hps
            simp at hps
          · rw [if_neg hu]
      simp only [Option.toList_none, List.nil_append]
      rw [hst]
      exact ih st c hfin hcap hobs' hc
    | some w =>
      have hw : w = (pollStep st r).1 := pollStep_pub st r w (by rw [hps])
      simp only [Option.toList_some, List.cons_append]
      apply List.chain'_cons.mpr
      constructor
      · rw [hw, h2]
        exact le_max_left _ _
      · have := ih (pollStep st r).1 c h1 hcap' hobs' hc
        rw [hw]
        exact this

/-- Claim C3: across any task lifecycle — the initial update, the
distribution update, any sequence of polled worker responses, the completion
of all sub-task promises, and any polls that fire afterwards — exactly one
published update has `finished = true`, it is the last published update, and
nothing is published after it. -/
theorem exactly_one_terminal_update (gpuNames : String)
    (polls postPolls : List PollResponse) (allResults : List String)
    (totalImages : Int) :
    ((publishedUpdates gpuNames polls postPolls allResults totalImages).filter
      (fun u => u.finished)).length = 1 ∧
    (publishedUpdates gpuNames polls postPolls allResults totalImages).getLast? =
      some (completeStep (processPolls (distributingStatus gpuNames) polls).1
        allResults totalImages) ∧
    (completeStep (processPolls (distributingStatus gpuNames) polls).1
        allResults totalImages).finished = true ∧
    ∀ u ∈ (publishedUpdates gpuNames polls postPolls allResults
        totalImages).dropLast, u.finished = false := by
  have hpubsnf : ∀ u ∈ (processPolls (distributingStatus gpuNames) polls).2,
      u.finished = false :=
    processPolls_pubs_not_finished polls (distributingStatus gpuNames) rfl
  have hpost : processPolls
      (completeStep (processPolls (distributingStatus gpuNames) polls).1
        allResults totalImages) postPolls =
      (completeStep (processPolls (distributingStatus gpuNames) polls).1
        allResults totalImages, []) :=
    processPolls_of_finished _ _ rfl
  have hshape : publishedUpdates gpuNames polls postPolls allResults totalImages =
      ([initialStatus, distributingStatus gpuNames] ++
        (processPolls (distributingStatus gpuNames) polls).2) ++
      [completeStep (processPolls (distributingStatus gpuNames) polls).1
        allResults totalImages] := by
    unfold publishedUpdates
    dsimp only
    rw [hpost]
    simp
  rw [hshape]
  refine ⟨?_, ?_, rfl, ?_⟩
  · rw [List.filter_append]
    have hA : (([initialStatus, distributingStatus gpuNames] ++
        (processPolls (distributingStatus gpuNames) polls).2).filter
          (fun u => u.finished)) = [] := by
      apply List.filter_eq_nil_iff.mpr
      intro u hu
      rcases List.mem_append.mp hu with hl | hr
      · rcases List.mem_cons.mp hl with h | h
        · rw [h]; simp [initialStatus]
        · simp only [List.mem_singleton] at h
          rw [h]; simp [distributingStatus, initialStatus]
      · simp [hpubsnf u hr]
    rw [hA]
    rfl
  · exact List.getLast?_concat _
  · rw [List.dropLast_concat]
    intro u hu
    rcases List.mem_append.mp hu with hl | hr
    · rcases List.mem_cons.mp hl with h | h
      · rw [h]; rfl
      · simp only [List.mem_singleton] at h
        rw [h]; rfl
    · exact hpubsnf u hr

/-- Claim C4: with each worker-reported percentage in the contract range
(at most 100), the published updates of a task lifecycle carry non-decreasing
percentages; after any number of observed responses the stored percentage is
the maximum of the 5 set at distribution (which dominates the initial 0) and
all percentages observed so far; each published polling update is a snapshot
of that stored status; and the final published percentage is 100. -/
theorem monotonic_progress (gpuNames : String) (polls : List PollResponse)
    (allResults : List String) (totalImages : Int)
    (hobs : ∀ r ∈ polls, r.percentage ≤ 100) :
    List.Chain' (fun a b => a.percentage ≤ b.percentage)
      (publishedUpdates gpuNames polls [] allResults totalImages) ∧
    (∀ k : Nat, k ≤ polls.length →
      ((processPolls (distributingStatus gpuNames) (polls.take k)).1).percentage =
        List.foldl max 5 ((polls.take k).map (fun r => r.percentage))) ∧
    (∀ u ∈ (processPolls (distributingStatus gpuNames) polls).2,
      ∃ k, k ≤ polls.length ∧
        u = (processPolls (distributingStatus gpuNames) (polls.take k)).1) ∧
    ((publishedUpdates gpuNames polls [] allResults totalImages).getLast?.map
      (fun u => u.percentage)) = some 100 := by
  have hpost : processPolls
      (completeStep (processPolls (distributingStatus gpuNames) polls).1
        allResults totalImages) ([] : List PollResponse) =
      (completeStep (processPolls (distributingStatus gpuNames) polls).1
        allResults totalImages, []) :=
    processPolls_of_finished _ _ rfl
  have hshape : publishedUpdates gpuNames polls [] allResults totalImages =
      initialStatus :: distributingStatus gpuNames ::
      ((processPolls (distributingStatus gpuNames) polls).2 ++
      [completeStep (processPolls (distributingStatus gpuNames) polls).1
        allResults totalImages]) := by
    unfold publishedUpdates
    dsimp only
    rw [hpost]
    simp
  refine ⟨?_, ?_, ?_, ?_⟩
  · rw [hshape]
    apply List.chain'_cons.mpr
    constructor
    · show (0 : ℚ) ≤ 5
      norm_num
    · exact processPolls_chain polls (distributingStatus gpuNames)
        (completeStep (processPolls (distributingStatus gpuNames) polls).1
          allResults totalImages) rfl
        (by norm_num [distributingStatus, initialStatus]) hobs rfl
  · intro k hk
    exact (processPolls_state (polls.take k) (distributingStatus gpuNames) rfl).2
  · exact processPolls_pubs_snapshots polls (distributingStatus gpuNames)
  · rw [hshape]
    have : (initialStatus :: distributingStatus gpuNames ::
        ((processPolls (distributingStatus gpuNames) polls).2 ++
        [completeStep (processPolls (distributingStatus gpuNames) polls).1
          allResults totalImages])) =
        (initialStatus :: distributingStatus gpuNames ::
        (processPolls (distributingStatus gpuNames) polls).2) ++
        [completeStep (processPolls (distributingStatus gpuNames) polls).1
          allResults totalImages] := by
      simp
    rw [this, List.getLast?_concat]
    rfl

/-- Witness for claim C4 at two concrete polled responses (one publishing by
percentage, one by preview): the hypotheses hold and the instantiated
conclusions follow. -/
theorem monotonic_progress_witness :
    (∀ r ∈ wPolls, r.percentage ≤ 100) ∧
    (List.Chain' (fun a b => a.percentage ≤ b.percentage)
      (publishedUpdates "g" wPolls [] ["a.png"] 1) ∧
    (∀ k : Nat, k ≤ wPolls.length →
      ((processPolls (distributingStatus "g") (wPolls.take k)).1).percentage =
        List.foldl max 5 ((wPolls.take k).map (fun r => r.percentage))) ∧
    (∀ u ∈ (processPolls (distributingStatus "g") wPolls).2,
      ∃ k, k ≤ wPolls.length ∧
        u = (processPolls (distributingStatus "g") (wPolls.take k)).1) ∧
    ((publishedUpdates "g" wPolls [] ["a.png"] 1).getLast?.map
      (fun u => u.percentage)) = some 100) :=
  ⟨by decide, monotonic_progress "g" wPolls ["a.png"] 1 (by decide)⟩

/-- Claim C10: a falsy `image_number` (absent, null, 0, NaN, false, empty
string) resolves to exactly 1 requested image and, with the scheduler
enabled, the handler proceeds rather than rejecting; over number-valued
`image_number`s the `'no images requested'` error branch is reachable exactly
for the negative values. -/
theorem generate_totalImages_default (v : JVal) :
    (jsTruthy v = false →
      resolveTotalImages v = .num (.fin 1) ∧ generateProceeds true v = true) ∧
    (∀ q : ℚ, generateProceeds true (.num (.fin q)) = false ↔ q < 0) ∧
    generateProceeds true (.num .negInf) = false ∧
    generateProceeds true (.num .nan) = true ∧
    generateProceeds true (.num .posInf) = true := by
  refine ⟨?_, ?_, by rfl, by rfl, by rfl⟩
  · intro hfalsy
    constructor
    · simp [resolveTotalImages, hfalsy]
    · simp [generateProceeds, resolveTotalImages, hfalsy, jsGtZero]
  · intro q
    by_cases hq : q = 0
    · subst hq
      simp [generateProceeds, resolveTotalImages, jsTruthy, jsGtZero]
    · simp only [generateProceeds, resolveTotalImages, jsTruthy]
      rw [if_pos (by simp [hq])]
      simp only [jsGtZero, Bool.true_and]
      constructor
      · intro h
        have : ¬ (0 < q) := by
          intro hlt
          simp [decide_eq_true hlt] at h
        rcases lt_trichotomy q 0 with h' | h' | h'
        · exact h'
        · exact absurd h' hq
        · exact absurd h' this
      · intro h
        exact decide_eq_false (not_lt.mpr (le_of_lt h))

/-- Witness for claim C10: `image_number: null` is falsy, resolves to one
image and proceeds. -/
theorem generate_totalImages_default_witness :
    jsTruthy JVal.null = false ∧
    (resolveTotalImages .null = .num (.fin 1) ∧
     generateProceeds true .null = true) :=
  ⟨by decide, (generate_totalImages_default .null).1 (by decide)⟩

end Server

end RemGo
